import Mathlib

/-!
Verification development for the MegaMicro MEMS-array acquisition core
(`mu32/core_base.py`, `mu32/core_server.py`, `mu32/core_h5.py`).

The Python data path is shallowly embedded: 32-bit device words are modelled
as integers with explicit wrapping where numpy int32 arithmetic wraps, numpy
matrices as `List (List ℤ)` in row-major order, the bounded sample queue as a
`List`, and the stateful transfer engine as explicit state-passing step
functions.  Every definition is translated from the corresponding Python
function, named in its doc comment.
-/

namespace Mu32

/-! ### 32-bit words and little-endian serialization -/

/-- Wrap an integer into the signed 32-bit range, as numpy int32 arithmetic
does on overflow. -/
def i32wrap (z : ℤ) : ℤ := (z + 2147483648) % 4294967296 - 2147483648

/-- The four little-endian bytes of a 32-bit word, as `ndarray.tobytes`
produces for one int32 element on a little-endian host. -/
def le4 (z : ℤ) : List ℕ :=
  let m := (z % 4294967296).toNat
  [m % 256, m / 256 % 256, m / 65536 % 256, m / 16777216 % 256]

/-- Model of `ndarray.tobytes()`: row-major flattening of a 2-D int32 matrix into its
little-endian byte image. -/
def tobytes (m : List (List ℤ)) : List ℕ := (m.flatten.map le4).flatten

/-! ### Sample queue (`core_base.py` `processRun`, lines 1049–1054)

With no user callback configured, the transfer engine pushes each frame into
`self._signal_q`; when `queue_size > 0` and the queue already holds
`queue_size` frames, the oldest is removed first. -/

/-- Queue insertion performed by `MegaMicro.processRun`
(`core_base.py:1049-1054`): `if queue_size > 0 and qsize >= queue_size:
get()` then `put(data)`.  The queue is FIFO, so `get` removes the head. -/
def processRunQueuePut (queue_size : ℕ) (q : List α) (x : α) : List α :=
  if 0 < queue_size ∧ queue_size ≤ q.length then q.drop 1 ++ [x] else q ++ [x]

/-- Queue insertion performed by `MuH5._process_transfert`
(`core_h5.py:281-289`), textually the same policy as the live engine. -/
def h5ProcessTransfertQueuePut (queue_size : ℕ) (q : List α) (x : α) : List α :=
  if 0 < queue_size ∧ queue_size ≤ q.length then q.drop 1 ++ [x] else q ++ [x]

/-! ### The `MegaMicro` class namespace (`core_base.py`, lines 261–460)

The class body defines the property `status` twice: once at lines 293–295
returning the `_status` channel flag, and once at lines 345–381 returning the
session-status dictionary.  A Python class body executes sequentially into
the class namespace dictionary, so the later binding wins. -/

/-- A property of the `MegaMicro` class body, by the shape of its getter. -/
inductive PyMember where
  /-- getter returning a single instance attribute `self.<attr>` -/
  | simpleProp (attr : String)
  /-- getter returning a module-level constant -/
  | constProp (const : String)
  /-- getter returning a freshly built dictionary with the given keys -/
  | dictProp (keys : List String)
deriving DecidableEq

/-- Keys of the dictionary returned by the second `status` property
(`core_base.py:345-381`). -/
def statusDictKeys : List String :=
  ["clockdiv", "sampling_frequency", "buffer_length", "buffers_number",
   "buffer_duration", "duration", "mems", "mems_number", "analogs",
   "analogs_number", "counter", "counter_skip", "status", "start_trig",
   "channels_number", "buffer_words_length", "transfers_count", "block",
   "h5_recording", "h5_rootdir", "h5_dataset_duration", "h5_file_duration",
   "h5_compressing", "h5_compression_algo", "h5_gzip_level", "cv_monitoring",
   "cv_codec", "cv_device", "cv_rootdir", "cv_color_mode",
   "cv_sampling_frequency", "cv_show", "cv_file_duration"]

/-- Keys of the dictionary returned by the `parameters` property
(`core_base.py:383-420`). -/
def parametersDictKeys : List String :=
  ["clockdiv", "sampling_frequency", "buffer_length", "buffers_number",
   "buffer_duration", "duration", "mems", "available_mems", "mems_number",
   "analogs", "analogs_number", "counter", "counter_skip", "status",
   "start_trig", "channels_number", "buffer_words_length", "transfers_count",
   "block", "h5_recording", "h5_rootdir", "h5_dataset_duration",
   "h5_file_duration", "h5_compressing", "h5_compression_algo",
   "h5_gzip_level", "cv_monitoring", "cv_codec", "cv_device", "cv_rootdir",
   "cv_color_mode", "cv_sampling_frequency", "cv_show", "cv_file_duration"]

/-- The `@property` definitions of the `MegaMicro` class body
(`core_base.py:261-460`), in source order, as (name, member) bindings. -/
def megaMicroClassBody : List (String × PyMember) :=
  [("signal_q", .simpleProp "_signal_q"),
   ("signal_ts", .simpleProp "_signal_ts"),
   ("mems", .simpleProp "_mems"),
   ("mems_number", .simpleProp "_mems_number"),
   ("analogs", .simpleProp "_analogs"),
   ("analogs_number", .simpleProp "_analogs_number"),
   ("counter", .simpleProp "_counter"),
   ("counter_skip", .simpleProp "_counter_skip"),
   ("status", .simpleProp "_status"),
   ("channels_number", .simpleProp "_channels_number"),
   ("clockdiv", .simpleProp "_clockdiv"),
   ("start_trig", .simpleProp "_start_trig"),
   ("sampling_frequency", .simpleProp "_sampling_frequency"),
   ("buffer_length", .simpleProp "_buffer_length"),
   ("buffers_number", .simpleProp "_buffers_number"),
   ("buffer_duration", .simpleProp "_buffer_duration"),
   ("duration", .simpleProp "_duration"),
   ("transfers_count", .simpleProp "_transfers_count"),
   ("datatype", .simpleProp "_datatype"),
   ("sensibility", .constProp "MU_MEMS_SENSIBILITY"),
   ("available_mems", .simpleProp "_available_mems"),
   ("status", .dictProp statusDictKeys),
   ("parameters", .dictProp parametersDictKeys),
   ("h5_recording", .simpleProp "_h5_recording"),
   ("h5_rootdir", .simpleProp "_h5_rootdir"),
   ("h5_dataset_duration", .simpleProp "_h5_dataset_duration"),
   ("h5_dataset_length", .simpleProp "_h5_dataset_length"),
   ("h5_file_duration", .simpleProp "_h5_file_duration"),
   ("h5_compressing", .simpleProp "_h5_compressing"),
   ("h5_compression_algo", .simpleProp "_h5_compression_algo"),
   ("h5_gzip_level", .simpleProp "_h5_gzip_level"),
   ("h5_dataset_number", .simpleProp "_h5_dataset_number"),
   ("queue_size", .simpleProp "_queue_size")]

/-- Attribute lookup on a Python class: the class body executes top to
bottom into a dictionary, so the last binding of a name wins. -/
def classAttr (body : List (String × PyMember)) (name : String) :
    Option PyMember :=
  ((body.filter (fun b => b.1 = name)).map (fun b => b.2)).getLast?

/-! ### Broadcast hub (`core_server.py` `handler_service_run`, lines 1537–1658)

Per frame the hub pops a `(channels × samples)` frame from the signal queue,
transposes it (`.T`, line 1565), and for each subscriber beyond the runner
sends `data[:, host['mask']].tobytes()` (line 1580).  A
`ConnectionClosedOK` send failure on a listener queues it for removal, any
other exception (and `ConnectionClosedOK` on the runner) stops the session;
removal is `del self._broadcast_connected[i]` at the stored id (line 1611). -/

/-- numpy boolean-mask selection along the leading axis: keep the entries
whose mask bit is `True`, in order. -/
def boolMask (l : List α) (mask : List Bool) : List α :=
  ((l.zip mask).filter (fun p => p.2)).map (fun p => p.1)

/-- numpy transpose of a matrix with `cols` columns: entry `(j, i)` of the
result is entry `(i, j)` of the argument. -/
def transposeM (m : List (List ℤ)) (cols : ℕ) : List (List ℤ) :=
  (List.range cols).map (fun j => m.map (fun row => row.getD j 0))

/-- The byte image `handler_service_run` sends to one listener
(`core_server.py:1565,1580`): the queued `(channels × samples)` frame is
transposed, its columns are selected by the listener's stored boolean mask,
and the result is serialized row-major. -/
def listenerBytes (frame : List (List ℤ)) (mask : List Bool) (samples : ℕ) :
    List ℕ :=
  tobytes ((transposeM frame samples).map (fun row => boolMask row mask))

/-- The byte image the specification claims for one listener: the row-major,
channel-major `(channels × samples)` little-endian int32 serialization of
`frame[mask, :]`.  Stated from the spec's words, for comparison with
`listenerBytes`. -/
def listenerBytesClaimed (frame : List (List ℤ)) (mask : List Bool) : List ℕ :=
  tobytes (boolMask frame mask)

/-- Sample-major serialization of the masked frame: the row-major byte image
of the transpose of `frame[mask, :]`. -/
def listenerBytesSampleMajor (frame : List (List ℤ)) (mask : List Bool)
    (samples : ℕ) : List ℕ :=
  tobytes (transposeM (boolMask frame mask) samples)

/-- Outcome of one websocket `send` in the fan-out loop: success, a
`websockets.exceptions.ConnectionClosedOK` failure, or any other
exception. -/
inductive SendOutcome where
  | ok
  | closedOk
  | err
deriving DecidableEq

/-- One broadcast subscriber as stored in `self._broadcast_connected`:
slot id 0 is the runner, later ids are listeners. -/
structure BHost where
  hid : ℕ
deriving DecidableEq

/-- The send loop of `handler_service_run` (`core_server.py:1567-1605`) over
one frame: returns the collected `listen_clients_to_stop` ids, or `none` when
the loop stops the session (`ConnectionClosedOK` on the runner, or any other
exception on any socket).  `total` is `len(self._broadcast_connected)` for
the `stream_skip` runner check. -/
def fanoutCollect (total : ℕ) (streamSkip : Bool) (out : ℕ → SendOutcome) :
    List BHost → Option (List ℕ)
  | [] => some []
  | h :: t =>
    if h.hid = 0 then
      if ¬streamSkip ∨ total = 1 then
        match out 0 with
        | .ok => fanoutCollect total streamSkip out t
        | .closedOk => none
        | .err => none
      else fanoutCollect total streamSkip out t
    else
      match out h.hid with
      | .ok => fanoutCollect total streamSkip out t
      | .closedOk => (fanoutCollect total streamSkip out t).map
          (fun l => h.hid :: l)
      | .err => none

/-- Python `del l[i]`: remove the element at position `i`, `none` on
`IndexError` (which the outer handler turns into a session stop). -/
def delAt (l : List α) (i : ℕ) : Option (List α) :=
  if i < l.length then some (l.take i ++ l.drop (i + 1)) else none

/-- The removal loop `for i in listen_clients_to_stop: del
self._broadcast_connected[i]` (`core_server.py:1610-1611`). -/
def delAll (l : List α) : List ℕ → Option (List α)
  | [] => some l
  | i :: is' =>
    match delAt l i with
    | none => none
    | some l' => delAll l' is'

/-- One frame of broadcast fan-out: the send loop followed by the removal
loop; `none` means the session was terminated (`self._mm.stop()`). -/
def fanoutStep (hosts : List BHost) (streamSkip : Bool)
    (out : ℕ → SendOutcome) : Option (List BHost) :=
  match fanoutCollect hosts.length streamSkip out hosts with
  | none => none
  | some stops => delAll hosts stops

/-! ### Sampling-frequency resolution (`core_base.py` `run_setargs`,
lines 1233–1234)

`self._clockdiv = max(int(500000 / sampling_frequency) - 1, 9)` and
`self._sampling_frequency = 500000 / (self._clockdiv + 1)`.  For a positive
request, Python `int` truncation is the floor. -/

/-- The `run_setargs` clock-divisor resolution (`core_base.py:1233`). -/
def clockdiv (sampling_frequency : ℚ) : ℤ :=
  max (⌊(500000 : ℚ) / sampling_frequency⌋ - 1) 9

/-- The `run_setargs` resolved sampling frequency (`core_base.py:1234`). -/
def sampling_frequency (requested : ℚ) : ℚ :=
  500000 / ((clockdiv requested : ℚ) + 1)

/-! ### Transfer engine (`core_base.py` `processRun` lines 918–1072 and the
recording loop of `transfer_loop`, lines 1556–1622)

`processRun` is the bulk-transfer completion callback: it validates the
completion status and byte length, checks counter continuity, reshapes the
32-bit words into a `(channels × samples)` frame, emits it downstream,
resubmits the transfer while recording, and stops the session once the
transfer index exceeds `transfers_count`.  The recording loop drains
transfers and, on a restart request, resets the FX3 and resubmits all
transfers up to `DEFAULT_MAX_RETRY_ATTEMPT` consecutive times. -/

/-- Constant from `core_base.py:130`. -/
def DEFAULT_MAX_RETRY_ATTEMPT : ℕ := 5

/-- The counter-continuity check of `processRun` (`core_base.py:999-1000`):
`data[buffer_words_length - channels_number] - data[0] + 1 ==
buffer_length`, in wrapping numpy int32 arithmetic. -/
def counterCheckB (words : List ℤ) (channels : ℕ) (samples : ℕ) : Bool :=
  i32wrap (i32wrap (words.getD (channels * samples - channels) 0
    - words.getD 0 0) + 1) == (samples : ℤ)

/-- Model of `np.reshape(data, (buffer_length, channels_number)).T`
(`core_base.py:1017`): entry `(c, s)` of the frame is word `s·C + c`. -/
def reshapeTranspose (words : List ℤ) (channels : ℕ) (samples : ℕ) :
    List (List ℤ) :=
  (List.range channels).map
    (fun c => (List.range samples).map (fun s => words.getD (s * channels + c) 0))

/-- Acquisition parameters fixed by `run_setargs` for one session. -/
structure EngParams where
  transfers_count : ℕ
  buffers_number : ℕ
  channels_number : ℕ
  buffer_length : ℕ
  counter : Bool
  counter_skip : Bool
  start_trig : Bool
deriving DecidableEq

/-- What one `processRun` pass does with the data of a completed transfer:
emit a frame downstream, drop it and retry (short buffer), or request a
restart (counter mismatch, `core_base.py:999-1004`). -/
inductive PRResult where
  | emit (frame : List (List ℤ))
  | dropRetry
  | restartRequest
deriving DecidableEq

/-- The data path of `processRun` on a completed transfer
(`core_base.py:974-1054`): length check, counter-continuity check, reshape
and transpose, counter-row strip under `counter_skip`. -/
def processRun (p : EngParams) (words : List ℤ) : PRResult :=
  if words.length ≠ p.channels_number * p.buffer_length then .dropRetry
  else if (p.counter
      && !(counterCheckB words p.channels_number p.buffer_length)) = true then
    .restartRequest
  else
    let frame := reshapeTranspose words p.channels_number p.buffer_length
    .emit (if (p.counter && p.counter_skip) = true then frame.drop 1
      else frame)

/-- Mutable engine state: `_transfer_index`, `_recording`,
`_restart_request`, `_restart_attempt`, plus the number of in-flight
(submitted, uncompleted) bulk transfers. -/
structure EngState where
  transfer_index : ℕ
  recording : Bool
  restart_request : Bool
  restart_attempt : ℕ
  inFlight : ℕ
deriving DecidableEq

/-- Completion status of one bulk transfer.  `failed` stands for the
cancelled / no-device / error / stall / overflow statuses, which all take
the same path (`core_base.py:939-968`): stop the session, no callback. -/
inductive XferStatus where
  | completed (words : List ℤ)
  | timedOut
  | failed
deriving DecidableEq

/-- One event seen by the recording loop: a transfer completion handled by
`processRun`, or one pass of the restart branch of the loop
(`core_base.py:1601-1622`). -/
inductive XferEvent where
  | transferDone (st : XferStatus)
  | loopRestart
deriving DecidableEq

/-- One `processRun` callback on engine state (`core_base.py:918-1072`):
under a pending restart request nothing happens and the transfer is not
resubmitted; a timeout with `start_trig` is resubmitted silently; any other
non-completed status stops the session; completed data goes through the
data path, is emitted (even when the stop flag was already set — emission
precedes the resubmit/index code), the transfer is resubmitted while
recording, the index is incremented and the duration bound checked. -/
def processRunStep (p : EngParams) (s : EngState) (st : XferStatus) :
    EngState × Option (List (List ℤ)) :=
  if s.restart_request = true then ({ s with inFlight := s.inFlight - 1 }, none)
  else
    match st with
    | .timedOut =>
      if p.start_trig = true then
        ({ s with inFlight := if s.recording = true then s.inFlight
            else s.inFlight - 1 }, none)
      else ({ s with recording := false, inFlight := s.inFlight - 1 }, none)
    | .failed =>
      ({ s with recording := false, inFlight := s.inFlight - 1 }, none)
    | .completed words =>
      match processRun p words with
      | .dropRetry =>
        ({ s with inFlight := if s.recording = true then s.inFlight
            else s.inFlight - 1 }, none)
      | .restartRequest =>
        ({ s with restart_request := true, inFlight := s.inFlight - 1 }, none)
      | .emit frame =>
        ({ transfer_index := s.transfer_index + 1,
           recording := if p.transfers_count ≠ 0
               ∧ p.transfers_count < s.transfer_index + 1 then false
             else s.recording,
           restart_request := false,
           restart_attempt := if p.counter = true then 0
             else s.restart_attempt,
           inFlight := if s.recording = true then s.inFlight
             else s.inFlight - 1 }, some frame)

/-- The restart branch of the recording loop (`core_base.py:1601-1622`),
taken when all transfers have drained with a pending restart request: bump
the attempt counter; below `DEFAULT_MAX_RETRY_ATTEMPT` consecutive attempts
reset the FX3 and resubmit every transfer, otherwise stop as fatal. -/
def transferLoopRestart (p : EngParams) (s : EngState) : EngState :=
  if s.restart_request = true ∧ s.recording = true ∧ s.inFlight = 0 then
    if s.restart_attempt + 1 = 1 ∨ (1 < s.restart_attempt + 1
        ∧ s.restart_attempt + 1 < DEFAULT_MAX_RETRY_ATTEMPT) then
      { s with
        restart_attempt := s.restart_attempt + 1
        restart_request := false
        inFlight := p.buffers_number }
    else
      { s with
        restart_attempt := s.restart_attempt + 1
        recording := false
        restart_request := false }
  else s

/-- One engine event: a completion can only fire while a transfer is in
flight. -/
def engStepEvent (p : EngParams) (s : EngState) (e : XferEvent) :
    EngState × Option (List (List ℤ)) :=
  match e with
  | .transferDone st =>
    if s.inFlight = 0 then (s, none) else processRunStep p s st
  | .loopRestart => (transferLoopRestart p s, none)

/-- Run the engine over a sequence of events, counting emitted frames. -/
def engRun (p : EngParams) : List XferEvent → EngState → EngState × ℕ
  | [], s => (s, 0)
  | e :: es, s =>
    let r := engStepEvent p s e
    let t := engRun p es r.1
    (t.1, (if r.2.isSome then 1 else 0) + t.2)

/-- Engine state at the start of the recording loop
(`core_base.py:1573-1576`, with `buffers_number` transfers pre-submitted at
lines 1556-1568 and `_restart_attempt = 0` from `core_base.py:211`). -/
def engInit (p : EngParams) : EngState :=
  { transfer_index := 0, recording := true, restart_request := false,
    restart_attempt := 0, inFlight := p.buffers_number }

/-- The `run_setargs` transfer count (`core_base.py:1250`):
`int((duration * sampling_frequency) // buffer_length)`. -/
def transfers_count (duration fs : ℚ) (buffer_length : ℕ) : ℕ :=
  (⌊duration * fs / (buffer_length : ℚ)⌋).toNat

/-- One full misalignment round: the counter mismatch raises the restart
request, the remaining in-flight transfers drain without effect, and the
recording loop takes its restart branch. -/
def misalignRound (p : EngParams) (s : EngState) : EngState :=
  transferLoopRestart p { s with restart_request := true, inFlight := 0 }

/-- Invariant of the recording loop: while the stop flag is unset the
transfer index has not exceeded `transfers_count` and at most
`buffers_number` transfers are in flight. -/
def engInv (p : EngParams) (s : EngState) : Prop :=
  s.recording = true →
    s.transfer_index ≤ p.transfers_count ∧ s.inFlight ≤ p.buffers_number

/-- Upper bound on the frames the engine can still emit from state `s`. -/
def engMeasure (p : EngParams) (s : EngState) : ℕ :=
  if s.recording = true then
    (p.transfers_count + 1 - s.transfer_index) + p.buffers_number
  else s.inFlight

/-- Session parameters of the concrete bound-violating run: one channel,
`buffer_length = 512` at 50 kHz for 1 s would give a fractional count, so
take `buffer_length = 500`: `transfers_count = ⌊1·50000/500⌋ = 100`, two
pre-submitted buffers. -/
def cexEngParams : EngParams :=
  { transfers_count := 100, buffers_number := 2, channels_number := 1,
    buffer_length := 500, counter := false, counter_skip := false,
    start_trig := false }

/-! ### H5 recorder (`core_base.py` `h5_init` 1799–1827, `h5_init_file`
1830–1862, `h5_write_mems` 1864–1911)

The recorder fills an in-memory cache of `dataset_length` samples; when a
`write` cannot fit entirely, the filled dataset is committed as group
`str(dataset_index)` with the root attributes `dataset_number` and
`duration` updated, rolling to a fresh file first when the index has
reached `_h5_dataset_number = int(file_duration // dataset_duration)`.
The sample payload itself is not needed for the structural claims and is
omitted from the state. -/

/-- H5 recorder parameters fixed by `run_setargs` / `h5_init`. -/
structure H5Params where
  buffer_length : ℕ
  dataset_length : ℕ
  dataset_number : ℕ
  dataset_duration : ℚ
deriving DecidableEq

/-- One H5 file: its committed dataset group names and the root-group
attributes `dataset_number` and `duration`. -/
structure H5File where
  groupNames : List ℕ
  dataset_number_attr : ℕ
  duration_attr : ℚ
deriving DecidableEq

/-- Recorder state: closed files, the currently open file,
`_h5_dataset_index` and `_h5_buffer_index`. -/
structure H5State where
  closedFiles : List H5File
  current : H5File
  dataset_index : ℕ
  buffer_index : ℕ
deriving DecidableEq

/-- Model of `h5_init_file` (`core_base.py:1830-1862`): a fresh file starts with no
dataset groups, `dataset_number = 0` and `duration = 0`; the dataset index
restarts at 0. -/
def h5_init_file : H5File := ⟨[], 0, 0⟩

/-- Model of `h5_init` (`core_base.py:1799-1827`): empty cache, first file open. -/
def h5InitState : H5State := ⟨[], h5_init_file, 0, 0⟩

/-- Value of `int(file_duration // dataset_duration)` (`core_base.py:1260,1820`). -/
def h5DatasetNumber (file_duration dataset_duration : ℚ) : ℕ :=
  (⌊file_duration / dataset_duration⌋).toNat

/-- The dataset commit inside `h5_write_mems` (`core_base.py:1893-1904`):
create group `str(index)`, then set the root attributes
`dataset_number = index + 1` and `duration = (index + 1) ·
dataset_duration`. -/
def h5CommitInto (p : H5Params) (f : H5File) (idx : ℕ) : H5File :=
  { groupNames := f.groupNames ++ [idx]
    dataset_number_attr := idx + 1
    duration_attr := ((idx : ℚ) + 1) * p.dataset_duration }

/-- Model of `h5_write_mems` (`core_base.py:1864-1911`) on the recorder state: a
frame either fits into the cache, or fills the dataset, which is committed
— into a fresh file when `dataset_index ≥ dataset_number` — and the tail of
the frame restarts the cache. -/
def h5_write_mems (p : H5Params) (s : H5State) : H5State :=
  if s.buffer_index + p.buffer_length < p.dataset_length then
    { s with buffer_index := s.buffer_index + p.buffer_length }
  else
    if p.dataset_number ≤ s.dataset_index then
      { closedFiles := s.closedFiles ++ [s.current]
        current := h5CommitInto p h5_init_file 0
        dataset_index := 0 + 1
        buffer_index := p.buffer_length - (p.dataset_length - s.buffer_index) }
    else
      { closedFiles := s.closedFiles
        current := h5CommitInto p s.current s.dataset_index
        dataset_index := s.dataset_index + 1
        buffer_index := p.buffer_length - (p.dataset_length - s.buffer_index) }

/-- Recorder state after `n` writes into a fresh session. -/
def h5Run (p : H5Params) (n : ℕ) : H5State := (h5_write_mems p)^[n] h5InitState

/-- The claimed file invariant: the dataset groups present are exactly
`0 .. dataset_number - 1` and `duration = dataset_number ·
dataset_duration`. -/
def fileOk (dd : ℚ) (f : H5File) : Prop :=
  f.groupNames = List.range f.dataset_number_attr ∧
  f.duration_attr = (f.dataset_number_attr : ℚ) * dd

/-- Recorder invariant: the current and every closed file satisfy
`fileOk`, and the dataset index mirrors the current file's attribute and
never exceeds `dataset_number`. -/
def h5Inv (p : H5Params) (s : H5State) : Prop :=
  fileOk p.dataset_duration s.current ∧
  s.dataset_index = s.current.dataset_number_attr ∧
  s.dataset_index ≤ p.dataset_number ∧
  ∀ f ∈ s.closedFiles, fileOk p.dataset_duration f

/-! ### H5 file names (`core_base.py` `h5_init_file`, line 1836)

`filename = 'mu5h-' + f"{date.year}{date.month:02}{date.day:02}-`
`{date.hour:02}{date.minute:02}{date.second:02}" + '.h5'`.  Names are
modelled as lists of character codes. -/

/-- Decimal digits of `n` as character codes, most significant first —
Python `str(n)` for a natural number.  Structural recursion on a fuel that
dominates the digit count. -/
def natDigitsAux : ℕ → ℕ → List ℕ
  | 0, _ => []
  | fuel + 1, n =>
    if n < 10 then [48 + n] else natDigitsAux fuel (n / 10) ++ [48 + n % 10]

/-- Python `str(n)` as character codes. -/
def natDigits (n : ℕ) : List ℕ := natDigitsAux (n + 1) n

/-- Python `f"{n:02}"`: zero-pad to two characters. -/
def pad2 (n : ℕ) : List ℕ := if n < 10 then 48 :: natDigits n else natDigits n

/-- The basename built by `h5_init_file` (`core_base.py:1836`) from the
local time `y-mo-d h:mi:s`: the characters of
`mu5h-YYYYMMDD-HHMMSS.h5`. -/
def h5_init_file_basename (y mo d h mi s : ℕ) : List ℕ :=
  [109, 117, 53, 104, 45] ++ natDigits y ++ pad2 mo ++ pad2 d
    ++ [45] ++ pad2 h ++ pad2 mi ++ pad2 s ++ [46, 104, 53]

/-- Lexicographic strict comparison of byte strings, as Python compares
`str` (over these all-ASCII names). -/
def lexLtB : List ℕ → List ℕ → Bool
  | [], [] => false
  | [], _ :: _ => true
  | _ :: _, [] => false
  | a :: as, b :: bs =>
    if a < b then true else if a = b then lexLtB as bs else false

/-- Lexicographic `≤` on byte strings. -/
def lexLeB (a b : List ℕ) : Bool := lexLtB a b || a == b

/-- Chronological order of two wall-clock dates, as tuples
`(year, month, day, hour, minute, second)`. -/
abbrev chronLe (y mo d h mi s y' mo' d' h' mi' s' : ℕ) : Prop :=
  y < y' ∨ (y = y' ∧ (mo < mo' ∨ (mo = mo' ∧ (d < d' ∨ (d = d' ∧
    (h < h' ∨ (h = h' ∧ (mi < mi' ∨ (mi = mi' ∧ s ≤ s')))))))))

/-! ## Theorems -/

/-- Claim C6: With no user callback and `queue_size > 0`, both the live engine
(`processRun`) and the playback engine (`_process_transfert`) evict the
oldest queued frame before inserting into a full queue, so the queue never
holds more than `queue_size` frames; with `queue_size = 1`, after frames
`a, b, c` are produced with no consumer a single take returns `c`. -/
theorem queue_newestWins (queue_size : ℕ) (q : List α) (x a b c : α)
    (hq : 0 < queue_size) (hlen : q.length ≤ queue_size) :
    (processRunQueuePut queue_size q x).length ≤ queue_size ∧
    (h5ProcessTransfertQueuePut queue_size q x).length ≤ queue_size ∧
    processRunQueuePut 1 (processRunQueuePut 1 (processRunQueuePut 1 [] a) b) c
      = [c] ∧
    h5ProcessTransfertQueuePut 1
      (h5ProcessTransfertQueuePut 1 (h5ProcessTransfertQueuePut 1 [] a) b) c
      = [c] ∧
    (processRunQueuePut 1 (processRunQueuePut 1 (processRunQueuePut 1 [] a) b)
      c).head? = some c := by
  refine ⟨?_, ?_, ?_, ?_, ?_⟩
  · unfold processRunQueuePut
    split
    · next h =>
      simp only [List.length_append, List.length_drop, List.length_cons,
        List.length_nil]
      omega
    · next h =>
      simp only [List.length_append, List.length_cons, List.length_nil]
      omega
  · unfold h5ProcessTransfertQueuePut
    split
    · next h =>
      simp only [List.length_append, List.length_drop, List.length_cons,
        List.length_nil]
      omega
    · next h =>
      simp only [List.length_append, List.length_cons, List.length_nil]
      omega
  · simp [processRunQueuePut]
  · simp [h5ProcessTransfertQueuePut]
  · simp [processRunQueuePut]

/-- Witness for `queue_newestWins` at `queue_size = 1`, `q = []`. -/
theorem queue_newestWins_witness :
    (0 < 1 ∧ ([] : List ℕ).length ≤ 1) ∧
    (processRunQueuePut 1 ([] : List ℕ) 7).length ≤ 1 ∧
    processRunQueuePut 1 (processRunQueuePut 1 (processRunQueuePut 1 [] 1) 2) 3
      = [3] := by
  have h := queue_newestWins (α := ℕ) 1 [] 7 1 2 3 (by decide) (by decide)
  exact ⟨⟨by decide, by decide⟩, h.1, h.2.2.1⟩

/-- Claim C10: In the `MegaMicro` class namespace the binding of `status` is
the session-status dictionary property (`core_base.py:345-381`), not the
earlier `_status` channel-flag property (`core_base.py:293-295`): the later
definition shadows the earlier one, so the flag is unreachable through the
public `status` attribute. -/
theorem megaMicro_status_isDict :
    classAttr megaMicroClassBody "status" = some (.dictProp statusDictKeys) ∧
    classAttr megaMicroClassBody "status" ≠ some (.simpleProp "_status") ∧
    "clockdiv" ∈ statusDictKeys ∧ "sampling_frequency" ∈ statusDictKeys ∧
    "buffer_length" ∈ statusDictKeys := by
  refine ⟨by decide, by decide, by decide, by decide, by decide⟩

theorem boolMask_cons (a : α) (t : List α) (b : Bool) (bs : List Bool) :
    boolMask (a :: t) (b :: bs)
      = if b then a :: boolMask t bs else boolMask t bs := by
  cases b <;> simp [boolMask]

theorem boolMask_map (f : α → β) :
    ∀ (l : List α) (mask : List Bool),
      boolMask (l.map f) mask = (boolMask l mask).map f := by
  intro l
  induction l with
  | nil => intro mask; simp [boolMask]
  | cons a t ih =>
    intro mask
    cases mask with
    | nil => simp [boolMask]
    | cons b bs =>
      simp only [List.map_cons, boolMask_cons]
      cases b <;> simp [ih bs]

/-- Claim C1 counterexample: The byte image the hub sends to a listener is
not the channel-major serialization of `frame[mask, :]`: already for the
2×2 frame `[[0, 1], [2, 3]]` with the all-`True` mask the bytes differ. -/
theorem listenerBytes_ne_claimed :
    listenerBytes [[0, 1], [2, 3]] [true, true] 2
      ≠ listenerBytesClaimed [[0, 1], [2, 3]] [true, true] := by
  decide

/-- Claim C1 amended: For every frame fanned out by the broadcast hub and
every listener with stored boolean mask, the byte image sent to the listener
is the little-endian int32 serialization of the transpose of
`frame[mask, :]` — row-major `(samples × channels)`, i.e. sample-major
interleaved, not channel-major. -/
theorem listenerBytes_eq_sampleMajor (frame : List (List ℤ))
    (mask : List Bool) (samples : ℕ) :
    listenerBytes frame mask samples
      = listenerBytesSampleMajor frame mask samples := by
  unfold listenerBytes listenerBytesSampleMajor transposeM
  simp only [List.map_map]
  congr 1
  congr 1
  funext j
  simp only [Function.comp_apply]
  exact boolMask_map (fun row => row.getD j 0) frame mask

theorem delAt_append (p s : List α) (x : α) :
    delAt (p ++ x :: s) p.length = some (p ++ s) := by
  unfold delAt
  rw [if_pos]
  · congr 1
    rw [List.take_left]
    have h : p ++ x :: s = (p ++ [x]) ++ s := by simp
    rw [h, List.drop_left' (by simp)]
  · simp

theorem fanoutCollect_append_ok (total : ℕ) (out : ℕ → SendOutcome)
    (l rest : List BHost) (h : ∀ b ∈ l, b.hid ≠ 0 ∧ out b.hid = .ok) :
    fanoutCollect total false out (l ++ rest)
      = fanoutCollect total false out rest := by
  induction l with
  | nil => rfl
  | cons a t ih =>
    have ha := h a (by simp)
    have ht := ih (fun b hb => h b (by simp [hb]))
    simp [fanoutCollect, ha.1, ha.2, ht]

theorem fanoutCollect_err (total : ℕ) (g : ℕ → SendOutcome) :
    ∀ hosts : List BHost, (∃ b ∈ hosts, g b.hid = .err) →
      fanoutCollect total false g hosts = none := by
  intro hosts
  induction hosts with
  | nil => simp
  | cons a t ih =>
    rintro ⟨b, hb, hberr⟩
    rcases List.mem_cons.mp hb with rfl | hbt
    · by_cases ha : b.hid = 0
      · rw [ha] at hberr
        simp [fanoutCollect, ha, hberr]
      · simp [fanoutCollect, ha, hberr]
    · have htail := ih ⟨b, hbt, hberr⟩
      by_cases ha : a.hid = 0
      · cases houta : g 0 <;> simp [fanoutCollect, ha, houta, htail]
      · cases houta : g a.hid <;> simp [fanoutCollect, ha, houta, htail]

/-- Claim C8 counterexample: A send failure on a listener that is not a
normal close (`ConnectionClosedOK`) terminates the whole session: with
runner 0 and listener 1, a generic exception on listener 1's send makes the
fan-out stop the session (`fanoutStep = none`) instead of removing only that
listener. -/
theorem fanout_listener_err_stops :
    fanoutStep [⟨0⟩, ⟨1⟩] false
      (fun i => if i = 1 then SendOutcome.err else .ok) = none := by
  decide

/-- Claim C8 amended: During broadcast fan-out, only a `ConnectionClosedOK`
send failure on a listener is local: that listener (its stored id equal to
its list position) is removed and the session and other subscribers
continue.  Any other send failure on any socket terminates the session, as
does `ConnectionClosedOK` on the runner. -/
theorem fanout_amended (r x : BHost) (A B : List BHost)
    (out : ℕ → SendOutcome) (hr : r.hid = 0) (h0 : out 0 = .ok)
    (hA : ∀ b ∈ A, b.hid ≠ 0 ∧ out b.hid = .ok)
    (hB : ∀ b ∈ B, b.hid ≠ 0 ∧ out b.hid = .ok)
    (hx0 : x.hid ≠ 0) (hxo : out x.hid = .closedOk)
    (hxpos : x.hid = A.length + 1) :
    fanoutStep (r :: (A ++ x :: B)) false out = some (r :: (A ++ B)) ∧
    (∀ (hosts : List BHost) (g : ℕ → SendOutcome),
      (∃ b ∈ hosts, g b.hid = .err) → fanoutStep hosts false g = none) ∧
    (∀ (t : List BHost) (g : ℕ → SendOutcome) (rr : BHost), rr.hid = 0 →
      g 0 = .closedOk → fanoutStep (rr :: t) false g = none) := by
  refine ⟨?_, ?_, ?_⟩
  · have hcol : ∀ T, fanoutCollect T false out (r :: (A ++ x :: B))
        = some [x.hid] := by
      intro T
      have hx : fanoutCollect T false out (x :: B) = some [x.hid] := by
        have hB' : fanoutCollect T false out (B ++ []) = some [] :=
          fanoutCollect_append_ok _ _ _ _ hB
        rw [List.append_nil] at hB'
        simp [fanoutCollect, hx0, hxo, hB']
      have hA' := fanoutCollect_append_ok T out A (x :: B) hA
      have hstep : fanoutCollect T false out (r :: (A ++ x :: B))
          = fanoutCollect T false out (A ++ x :: B) := by
        simp [fanoutCollect, hr, h0]
      rw [hstep, hA', hx]
    unfold fanoutStep
    rw [hcol]
    have hdel : delAt (r :: (A ++ x :: B)) (A.length + 1)
        = some (r :: (A ++ B)) := by
      have := delAt_append (r :: A) B x
      simpa using this
    simp [delAll, hxpos, hdel]
  · intro hosts g hex
    unfold fanoutStep
    rw [fanoutCollect_err hosts.length g hosts hex]
  · intro t g rr hrr hg
    unfold fanoutStep
    simp [fanoutCollect, hrr, hg]

/-- Witness for `fanout_amended`: runner 0, listeners 1 and 2, where
listener 1's send fails with a normal close and every other send succeeds:
listener 1 is removed and the session continues with runner 0 and
listener 2. -/
theorem fanout_amended_witness :
    ((BHost.mk 0).hid = 0 ∧
      (fun i => if i = 1 then SendOutcome.closedOk else .ok) 0 = .ok ∧
      (BHost.mk 1).hid ≠ 0 ∧
      (fun i => if i = 1 then SendOutcome.closedOk else .ok) 1 = .closedOk) ∧
    fanoutStep [⟨0⟩, ⟨1⟩, ⟨2⟩] false
      (fun i => if i = 1 then SendOutcome.closedOk else .ok)
      = some [⟨0⟩, ⟨2⟩] := by
  refine ⟨⟨rfl, by decide, by decide, by decide⟩, ?_⟩
  exact (fanout_amended ⟨0⟩ ⟨1⟩ [] [⟨2⟩]
    (fun i => if i = 1 then SendOutcome.closedOk else .ok)
    rfl (by decide) (by simp) (by decide) (by decide) (by decide)
    (by decide)).1

/-- Claim C5 counterexample: For the request 40 000 Hz parameter resolution
yields `clockdiv = 11`, whose derived frequency `500000/12 ≈ 41667 Hz`
exceeds the request: the resolved divisor is not one whose derived frequency
stays at or below the request. -/
theorem clockdiv_40000_exceeds :
    clockdiv 40000 = 11 ∧ (40000 : ℚ) < sampling_frequency 40000 := by
  have hfloor : ⌊(500000 : ℚ) / 40000⌋ = 12 := by
    rw [Int.floor_eq_iff]; norm_num
  constructor
  · rw [clockdiv, hfloor]
    decide
  · rw [sampling_frequency, clockdiv, hfloor]
    norm_num

/-- Claim C5 amended: For every requested sampling frequency `fs` with
`0 < fs ≤ 50000`, resolution yields `clockdiv = ⌊500000/fs⌋ - 1 ≥ 9`, the
greatest divisor whose derived frequency is still at least the request (any
larger divisor's derived frequency falls below the request); the resolved
sampling frequency equals `500000/(clockdiv+1)`, is at least the request,
and never exceeds 50 000 Hz. -/
theorem clockdiv_resolution (fs : ℚ) (hpos : 0 < fs) (hle : fs ≤ 50000) :
    9 ≤ clockdiv fs ∧
    clockdiv fs = ⌊(500000 : ℚ) / fs⌋ - 1 ∧
    sampling_frequency fs = 500000 / ((clockdiv fs : ℚ) + 1) ∧
    fs ≤ sampling_frequency fs ∧
    sampling_frequency fs ≤ 50000 ∧
    (∀ c : ℤ, clockdiv fs < c → 500000 / ((c : ℚ) + 1) < fs) := by
  set F : ℚ := (500000 : ℚ) / fs with hF
  have hFpos : 0 < F := by positivity
  have hF10 : (10 : ℚ) ≤ F := by
    rw [hF, le_div_iff₀ hpos]
    linarith
  have hq10 : (10 : ℤ) ≤ ⌊F⌋ := by
    rw [Int.le_floor]
    exact_mod_cast hF10
  have hcd : clockdiv fs = ⌊F⌋ - 1 := by
    rw [clockdiv, ← hF, max_eq_left (by omega)]
  have hcd9 : 9 ≤ clockdiv fs := by omega
  have hcast : ((clockdiv fs : ℚ) + 1) = ((⌊F⌋ : ℚ)) := by
    rw [hcd]; push_cast; ring
  have hfloorpos : (0 : ℚ) < (⌊F⌋ : ℚ) := by
    exact_mod_cast (by omega : (0 : ℤ) < ⌊F⌋)
  have hFfs : (500000 : ℚ) / F = fs := by
    rw [hF]
    field_simp
  refine ⟨hcd9, hcd, rfl, ?_, ?_, ?_⟩
  · rw [sampling_frequency, hcast, le_div_iff₀ hfloorpos]
    have hfl : (⌊F⌋ : ℚ) ≤ F := Int.floor_le F
    calc fs * (⌊F⌋ : ℚ) ≤ fs * F := by
          exact mul_le_mul_of_nonneg_left hfl (le_of_lt hpos)
      _ = 500000 := by rw [hF]; field_simp
  · rw [sampling_frequency, hcast, div_le_iff₀ hfloorpos]
    have : (10 : ℚ) ≤ (⌊F⌋ : ℚ) := by exact_mod_cast hq10
    linarith
  · intro c hc
    have hcge : (⌊F⌋ : ℤ) ≤ c := by omega
    have hFlt : F < (c : ℚ) + 1 := by
      have h1 : F < (⌊F⌋ : ℚ) + 1 := Int.lt_floor_add_one F
      have h2 : ((⌊F⌋ : ℚ)) ≤ (c : ℚ) := by exact_mod_cast hcge
      linarith
    have := div_lt_div_of_pos_left (by norm_num : (0 : ℚ) < 500000) hFpos hFlt
    rw [hFfs] at this
    exact this

/-- Witness for `clockdiv_resolution` at the request 50 000 Hz. -/
theorem clockdiv_resolution_witness :
    ((0 : ℚ) < 50000 ∧ (50000 : ℚ) ≤ 50000) ∧
    (9 ≤ clockdiv 50000 ∧
      clockdiv 50000 = ⌊(500000 : ℚ) / 50000⌋ - 1 ∧
      sampling_frequency 50000 = 500000 / ((clockdiv 50000 : ℚ) + 1) ∧
      (50000 : ℚ) ≤ sampling_frequency 50000 ∧
      sampling_frequency 50000 ≤ 50000 ∧
      (∀ c : ℤ, clockdiv 50000 < c → 500000 / ((c : ℚ) + 1) < 50000)) :=
  ⟨⟨by norm_num, by norm_num⟩,
    clockdiv_resolution 50000 (by norm_num) (by norm_num)⟩

theorem engStep_measure (p : EngParams) (hd : p.transfers_count ≠ 0)
    (s : EngState) (e : XferEvent) (hInv : engInv p s) :
    engInv p (engStepEvent p s e).1 ∧
    engMeasure p (engStepEvent p s e).1
      + (if (engStepEvent p s e).2.isSome then 1 else 0) ≤ engMeasure p s := by
  obtain ⟨i, rcd, rr, att, fl⟩ := s
  simp only [engInv] at hInv ⊢
  have hmax : DEFAULT_MAX_RETRY_ATTEMPT = 5 := rfl
  cases e with
  | loopRestart =>
    have hev : engStepEvent p ⟨i, rcd, rr, att, fl⟩ XferEvent.loopRestart
        = (transferLoopRestart p ⟨i, rcd, rr, att, fl⟩, none) := rfl
    rw [hev]
    cases rcd with
    | false =>
      have hno : transferLoopRestart p ⟨i, false, rr, att, fl⟩
          = ⟨i, false, rr, att, fl⟩ := by
        unfold transferLoopRestart
        rw [if_neg]
        rintro ⟨-, h, -⟩
        exact Bool.false_ne_true h
      rw [hno]
      exact ⟨hInv, by simp⟩
    | true =>
      have hfacts := hInv rfl
      cases rr with
      | false =>
        have hno : transferLoopRestart p ⟨i, true, false, att, fl⟩
            = ⟨i, true, false, att, fl⟩ := by
          unfold transferLoopRestart
          rw [if_neg]
          rintro ⟨h, -, -⟩
          exact Bool.false_ne_true h
        rw [hno]
        exact ⟨hInv, by simp⟩
      | true =>
        by_cases hfl : fl = 0
        · subst hfl
          by_cases hatt : att < 4
          · have hr : transferLoopRestart p ⟨i, true, true, att, 0⟩
                = ⟨i, true, false, att + 1, p.buffers_number⟩ := by
              unfold transferLoopRestart
              rw [if_pos ⟨rfl, rfl, rfl⟩, if_pos (show att + 1 = 1
                ∨ 1 < att + 1 ∧ att + 1 < DEFAULT_MAX_RETRY_ATTEMPT by
                  rw [hmax]; omega)]
            rw [hr]
            refine ⟨fun _ => ⟨hfacts.1, le_refl _⟩, ?_⟩
            simp [engMeasure]
          · have hr : transferLoopRestart p ⟨i, true, true, att, 0⟩
                = ⟨i, false, false, att + 1, 0⟩ := by
              unfold transferLoopRestart
              rw [if_pos ⟨rfl, rfl, rfl⟩, if_neg (show ¬(att + 1 = 1
                ∨ 1 < att + 1 ∧ att + 1 < DEFAULT_MAX_RETRY_ATTEMPT) by
                  rw [hmax]; omega)]
            rw [hr]
            refine ⟨fun h => absurd h Bool.false_ne_true, ?_⟩
            simp [engMeasure]
        · have hno : transferLoopRestart p ⟨i, true, true, att, fl⟩
              = ⟨i, true, true, att, fl⟩ := by
            unfold transferLoopRestart
            rw [if_neg]
            rintro ⟨-, -, h⟩
            exact hfl h
          rw [hno]
          exact ⟨hInv, by simp⟩
  | transferDone st =>
    by_cases hF : fl = 0
    · have hstep : engStepEvent p ⟨i, rcd, rr, att, fl⟩ (.transferDone st)
          = (⟨i, rcd, rr, att, fl⟩, none) := by
        simp only [engStepEvent]
        rw [if_pos hF]
      rw [hstep]
      exact ⟨hInv, by simp⟩
    · have hstep : engStepEvent p ⟨i, rcd, rr, att, fl⟩ (.transferDone st)
          = processRunStep p ⟨i, rcd, rr, att, fl⟩ st := by
        simp only [engStepEvent]
        rw [if_neg hF]
      rw [hstep]
      cases rr with
      | true =>
        have hr : processRunStep p ⟨i, rcd, true, att, fl⟩ st
            = (⟨i, rcd, true, att, fl - 1⟩, none) := by
          simp only [processRunStep]
          rw [if_pos trivial]
        rw [hr]
        refine ⟨fun h => ?_, ?_⟩
        · obtain ⟨h1, h2⟩ := hInv h
          refine ⟨h1, ?_⟩
          show fl - 1 ≤ p.buffers_number
          omega
        · cases rcd with
          | true => simp [engMeasure]
          | false => simp [engMeasure]
      | false =>
        cases st with
        | timedOut =>
          by_cases htrig : p.start_trig = true
          · have hr : processRunStep p ⟨i, rcd, false, att, fl⟩ .timedOut
                = (⟨i, rcd, false, att,
                    if rcd = true then fl else fl - 1⟩, none) := by
              simp [processRunStep, htrig]
            rw [hr]
            cases rcd with
            | true =>
              refine ⟨fun _ => by simpa using hInv rfl, ?_⟩
              simp [engMeasure]
            | false =>
              refine ⟨fun h => absurd h Bool.false_ne_true, ?_⟩
              simp [engMeasure]
          · have hr : processRunStep p ⟨i, rcd, false, att, fl⟩ .timedOut
                = (⟨i, false, false, att, fl - 1⟩, none) := by
              simp [processRunStep, htrig]
            rw [hr]
            refine ⟨fun h => absurd h Bool.false_ne_true, ?_⟩
            cases rcd with
            | true =>
              have hfacts := hInv rfl
              first | (simp [engMeasure]; done) | (simp [engMeasure]; omega)
            | false => simp [engMeasure]
        | failed =>
          have hr : processRunStep p ⟨i, rcd, false, att, fl⟩ .failed
              = (⟨i, false, false, att, fl - 1⟩, none) := by
            simp [processRunStep]
          rw [hr]
          refine ⟨fun h => absurd h Bool.false_ne_true, ?_⟩
          cases rcd with
          | true =>
            have hfacts := hInv rfl
            first | (simp [engMeasure]; done) | (simp [engMeasure]; omega)
          | false => simp [engMeasure]
        | completed words =>
          rcases hpr : processRun p words with frame | _ | _
          · have hr : processRunStep p ⟨i, rcd, false, att, fl⟩
                  (.completed words)
                = (⟨i + 1,
                    if p.transfers_count ≠ 0 ∧ p.transfers_count < i + 1
                      then false else rcd,
                    false,
                    if p.counter = true then 0 else att,
                    if rcd = true then fl else fl - 1⟩, some frame) := by
              simp [processRunStep, hpr]
            rw [hr]
            cases rcd with
            | false =>
              have hrec : (if p.transfers_count ≠ 0
                  ∧ p.transfers_count < i + 1 then false else false)
                  = false := by
                split <;> rfl
              rw [hrec]
              refine ⟨fun h => absurd h Bool.false_ne_true, ?_⟩
              first | (simp [engMeasure]; done) | (simp [engMeasure]; omega)
            | true =>
              have hfacts := hInv rfl
              by_cases hstop : p.transfers_count < i + 1
              · have hrec : (if p.transfers_count ≠ 0
                    ∧ p.transfers_count < i + 1 then false else true)
                    = false := by
                  rw [if_pos ⟨hd, hstop⟩]
                rw [hrec]
                refine ⟨fun h => absurd h Bool.false_ne_true, ?_⟩
                first | (simp [engMeasure]; done) | (simp [engMeasure]; omega)
              · have hrec : (if p.transfers_count ≠ 0
                    ∧ p.transfers_count < i + 1 then false else true)
                    = true := by
                  rw [if_neg (fun hc => hstop hc.2)]
                rw [hrec]
                refine ⟨fun _ => ⟨?_, hfacts.2⟩, ?_⟩
                · show i + 1 ≤ p.transfers_count
                  omega
                · first | (simp [engMeasure]; done) | (simp [engMeasure]; omega)
          · have hr : processRunStep p ⟨i, rcd, false, att, fl⟩
                  (.completed words)
                = (⟨i, rcd, false, att,
                    if rcd = true then fl else fl - 1⟩, none) := by
              simp [processRunStep, hpr]
            rw [hr]
            cases rcd with
            | true =>
              refine ⟨fun _ => by simpa using hInv rfl, ?_⟩
              simp [engMeasure]
            | false =>
              refine ⟨fun h => absurd h Bool.false_ne_true, ?_⟩
              simp [engMeasure]
          · have hr : processRunStep p ⟨i, rcd, false, att, fl⟩
                  (.completed words)
                = (⟨i, rcd, true, att, fl - 1⟩, none) := by
              simp [processRunStep, hpr]
            rw [hr]
            refine ⟨fun h => ?_, ?_⟩
            · obtain ⟨h1, h2⟩ := hInv h
              refine ⟨h1, ?_⟩
              show fl - 1 ≤ p.buffers_number
              omega
            · cases rcd with
              | true => simp [engMeasure]
              | false => simp [engMeasure]
theorem engRun_bound (p : EngParams) (hd : p.transfers_count ≠ 0) :
    ∀ (es : List XferEvent) (s : EngState), engInv p s →
      engInv p (engRun p es s).1 ∧ (engRun p es s).2 ≤ engMeasure p s := by
  intro es
  induction es with
  | nil => intro s h; exact ⟨h, by simp [engRun]⟩
  | cons e es ih =>
    intro s h
    have hstep := engStep_measure p hd s e h
    have hrest := ih (engStepEvent p s e).1 hstep.1
    refine ⟨by simpa [engRun] using hrest.1, ?_⟩
    show (if (engStepEvent p s e).2.isSome then 1 else 0)
      + (engRun p es (engStepEvent p s e).1).2 ≤ engMeasure p s
    omega

/-- Claim C2 amended: For a session with `duration > 0` and
`transfers_count = ⌊duration·fs / buffer_length⌋ ≥ 1`, the engine emits at
most `transfers_count + 1 + buffers_number` frames over the whole session
(any completion sequence): emission precedes the index check, so the frame
that trips the bound is emitted, and the transfers still in flight when the
stop flag falls are also drained through the emitting callback.  The stop
flag is cleared exactly once the transfer index exceeds `transfers_count`:
while the session is recording the index never exceeds it. -/
theorem processRun_total_frames (p : EngParams) (d fs : ℚ)
    (hp : p.transfers_count = transfers_count d fs p.buffer_length)
    (h1 : 1 ≤ p.transfers_count) :
    ∀ es : List XferEvent,
      (engRun p es (engInit p)).2
        ≤ transfers_count d fs p.buffer_length + 1 + p.buffers_number ∧
      ((engRun p es (engInit p)).1.recording = true →
        (engRun p es (engInit p)).1.transfer_index
          ≤ transfers_count d fs p.buffer_length) := by
  intro es
  have hd : p.transfers_count ≠ 0 := by omega
  have hinv0 : engInv p (engInit p) := by
    intro _
    exact ⟨by simp [engInit], le_refl _⟩
  have h := engRun_bound p hd es (engInit p) hinv0
  constructor
  · have hm : engMeasure p (engInit p)
        = p.transfers_count + 1 + p.buffers_number := by
      simp [engMeasure, engInit]
    rw [← hp]
    calc (engRun p es (engInit p)).2 ≤ engMeasure p (engInit p) := h.2
      _ = p.transfers_count + 1 + p.buffers_number := hm
  · intro hrec
    rw [← hp]
    exact (h.1 hrec).1

/-- Witness for `processRun_total_frames`: `duration = 1 s`,
`fs = 50000 Hz`, `buffer_length = 500`, two buffers, five completions. -/
theorem processRun_total_frames_witness :
    (cexEngParams.transfers_count = transfers_count 1 50000 500 ∧
      1 ≤ cexEngParams.transfers_count) ∧
    (engRun cexEngParams
        (List.replicate 5 (XferEvent.transferDone
          (.completed (List.replicate 500 0)))) (engInit cexEngParams)).2
      ≤ transfers_count 1 50000 500 + 1 + cexEngParams.buffers_number := by
  have htc : transfers_count 1 50000 500 = 100 := by
    have : (1 : ℚ) * 50000 / (500 : ℕ) = ((100 : ℤ) : ℚ) := by norm_num
    rw [transfers_count, this, Int.floor_intCast]
    rfl
  refine ⟨⟨by rw [htc]; decide, by decide⟩, ?_⟩
  exact (processRun_total_frames cexEngParams 1 50000
    (by show (100 : ℕ) = transfers_count 1 50000 500; rw [htc]) (by decide)
    (List.replicate 5 (XferEvent.transferDone
      (.completed (List.replicate 500 0))))).1

set_option maxRecDepth 40000 in
/-- Claim C2 counterexample: In the session `duration = 1 s`,
`fs = 50000 Hz`, `buffer_length = 500`, `buffers_number = 2` (no counter),
a stream of 103 clean completions makes the engine emit 103 frames, while
`ceil(duration·fs / buffer_length) = 100`: the claimed bound is exceeded —
the engine stops resubmitting once the index exceeds
`⌊duration·fs / buffer_length⌋ = 100`, but the bound-tripping frame and the
two still-in-flight transfers are all emitted. -/
theorem processRun_total_frames_cex :
    (engRun cexEngParams
        (List.replicate 103 (XferEvent.transferDone
          (.completed (List.replicate 500 0)))) (engInit cexEngParams)).2
      = 103 ∧
    transfers_count 1 50000 500 = 100 ∧
    (⌈(1 : ℚ) * 50000 / (500 : ℕ)⌉).toNat = 100 ∧
    ¬(103 ≤ 100) := by
  refine ⟨by decide, ?_, ?_, by decide⟩
  · have : (1 : ℚ) * 50000 / (500 : ℕ) = ((100 : ℤ) : ℚ) := by norm_num
    rw [transfers_count, this, Int.floor_intCast]
    rfl
  · have : (1 : ℚ) * 50000 / (500 : ℕ) = ((100 : ℤ) : ℚ) := by norm_num
    rw [this, Int.ceil_intCast]
    rfl

theorem reshapeTranspose_entry (words : List ℤ) (C L c s : ℕ)
    (hc : c < C) (hs : s < L) :
    ((reshapeTranspose words C L).getD c []).getD s 0
      = words.getD (s * C + c) 0 := by
  unfold reshapeTranspose
  simp only [List.getD_eq_getElem?_getD, List.getElem?_map,
    List.getElem?_range hc, Option.map_some', Option.getD_some,
    List.getElem?_range hs]

/-- Claim C3 counterexample: The per-completion counter validation checks
only the endpoints of the counter row, so a frame whose counter row is
`[0, 5, 2]` (channels 2, samples 3) passes validation and is emitted, yet
`frame[counter_row, 1] - frame[counter_row, 0] = 5 ≠ 1`. -/
theorem counter_linearity_cex :
    processRun ⟨0, 2, 2, 3, true, false, false⟩ [0, 0, 5, 0, 2, 0]
      = .emit [[0, 5, 2], [0, 0, 0]] ∧
    ¬((([[(0 : ℤ), 5, 2], [0, 0, 0]].getD 0 []).getD 1 0)
        - (([[(0 : ℤ), 5, 2], [0, 0, 0]].getD 0 []).getD 0 0) = 1) := by
  constructor
  · decide
  · decide

/-- Claim C3 amended: For every session with `counter = true` (counter row
kept), every frame the data path emits satisfies the endpoint identity the
validation actually enforces: in wrapping int32 arithmetic,
`frame[counter_row, buffer_length-1] - frame[counter_row, 0] + 1 =
buffer_length`.  Per-sample linearity inside the frame is not checked. -/
theorem counter_frame_endpoints (p : EngParams) (words : List ℤ)
    (frame : List (List ℤ)) (hctr : p.counter = true)
    (hsk : p.counter_skip = false) (hC : 0 < p.channels_number)
    (hL : 0 < p.buffer_length) (hrun : processRun p words = .emit frame) :
    i32wrap (i32wrap ((frame.getD 0 []).getD (p.buffer_length - 1) 0
      - (frame.getD 0 []).getD 0 0) + 1) = (p.buffer_length : ℤ) := by
  unfold processRun at hrun
  rw [hctr, hsk] at hrun
  simp only [Bool.true_and, Bool.and_false, Bool.false_eq_true, if_false]
    at hrun
  split_ifs at hrun with hlen hbad
  have hchk : counterCheckB words p.channels_number p.buffer_length = true := by
    simpa using hbad
  simp only [PRResult.emit.injEq] at hrun
  subst hrun
  have h0 : ((reshapeTranspose words p.channels_number p.buffer_length).getD
      0 []).getD 0 0 = words.getD 0 0 := by
    have := reshapeTranspose_entry words p.channels_number p.buffer_length
      0 0 hC hL
    simpa using this
  have hlast : ((reshapeTranspose words p.channels_number
      p.buffer_length).getD 0 []).getD (p.buffer_length - 1) 0
      = words.getD ((p.buffer_length - 1) * p.channels_number) 0 := by
    have := reshapeTranspose_entry words p.channels_number p.buffer_length
      0 (p.buffer_length - 1) hC (by omega)
    simpa using this
  rw [h0, hlast]
  rw [counterCheckB] at hchk
  have hidx : p.channels_number * p.buffer_length - p.channels_number
      = (p.buffer_length - 1) * p.channels_number := by
    rw [Nat.sub_one_mul, Nat.mul_comm]
  rw [hidx] at hchk
  exact of_decide_eq_true hchk

/-- Witness for `counter_frame_endpoints`: a clean frame with counter row
`[0, 1, 2]` over channels 2, samples 3. -/
theorem counter_frame_endpoints_witness :
    ((⟨0, 2, 2, 3, true, false, false⟩ : EngParams).counter = true ∧
      processRun ⟨0, 2, 2, 3, true, false, false⟩ [0, 0, 1, 0, 2, 0]
        = .emit [[0, 1, 2], [0, 0, 0]]) ∧
    i32wrap (i32wrap ((([[(0 : ℤ), 1, 2], [0, 0, 0]] : List (List ℤ)).getD
        0 []).getD (3 - 1) 0
      - (([[(0 : ℤ), 1, 2], [0, 0, 0]] : List (List ℤ)).getD 0 []).getD 0 0)
      + 1) = ((3 : ℕ) : ℤ) := by
  refine ⟨⟨rfl, by decide⟩, ?_⟩
  exact counter_frame_endpoints ⟨0, 2, 2, 3, true, false, false⟩
    [0, 0, 1, 0, 2, 0] [[0, 1, 2], [0, 0, 0]] rfl rfl (by decide) (by decide)
    (by decide)

theorem misalignRound_iter (p : EngParams) :
    ∀ k, k < DEFAULT_MAX_RETRY_ATTEMPT →
      (misalignRound p)^[k] (engInit p)
        = ⟨0, true, false, k, p.buffers_number⟩ := by
  have hmax : DEFAULT_MAX_RETRY_ATTEMPT = 5 := rfl
  intro k
  induction k with
  | zero => intro _; rfl
  | succ n ih =>
    intro hk
    rw [Function.iterate_succ_apply', ih (by omega)]
    unfold misalignRound transferLoopRestart
    rw [if_pos ⟨rfl, rfl, rfl⟩, if_pos (show n + 1 = 1
      ∨ 1 < n + 1 ∧ n + 1 < DEFAULT_MAX_RETRY_ATTEMPT by rw [hmax]; omega)]

/-- Claim C4: On a counter-continuity mismatch the engine requests a restart,
emits nothing and does not resubmit that transfer; while the consecutive
attempt count stays below `DEFAULT_MAX_RETRY_ATTEMPT = 5` the recording loop
resets the FX3 and resubmits all transfers with the attempt counter
incremented; the fifth consecutive misalignment stops the session as fatal;
and any frame that passes counter validation resets the attempt counter
to 0. -/
theorem misalignment_restart_protocol (p : EngParams) (a : ℕ)
    (words : List ℤ) (s : EngState) (hctr : p.counter = true)
    (hlen : words.length = p.channels_number * p.buffer_length)
    (hbad : counterCheckB words p.channels_number p.buffer_length = false)
    (hrr : s.restart_request = false)
    (ha : a + 1 < DEFAULT_MAX_RETRY_ATTEMPT) :
    processRun p words = .restartRequest ∧
    processRunStep p s (.completed words)
      = ({ s with restart_request := true, inFlight := s.inFlight - 1 },
        none) ∧
    transferLoopRestart p ⟨s.transfer_index, true, true, a, 0⟩
      = ⟨s.transfer_index, true, false, a + 1, p.buffers_number⟩ ∧
    ((misalignRound p)^[DEFAULT_MAX_RETRY_ATTEMPT] (engInit p)).recording
      = false ∧
    (∀ k, k < DEFAULT_MAX_RETRY_ATTEMPT →
      ((misalignRound p)^[k] (engInit p)).recording = true) ∧
    (∀ (ws : List ℤ) (f : List (List ℤ)) (t : EngState),
      processRun p ws = .emit f → t.restart_request = false →
      (processRunStep p t (.completed ws)).1.restart_attempt = 0) := by
  have hmax : DEFAULT_MAX_RETRY_ATTEMPT = 5 := rfl
  have ha5 : a + 1 < 5 := hmax ▸ ha
  have h1 : processRun p words = .restartRequest := by
    unfold processRun
    rw [if_neg (by simp [hlen]), if_pos (by rw [hctr, hbad]; rfl)]
  refine ⟨h1, ?_, ?_, ?_, ?_, ?_⟩
  · simp [processRunStep, hrr, h1]
  · unfold transferLoopRestart
    rw [if_pos ⟨rfl, rfl, rfl⟩,
      if_pos (show a + 1 = 1 ∨ 1 < a + 1
        ∧ a + 1 < DEFAULT_MAX_RETRY_ATTEMPT from by rw [hmax]; omega)]
  · rw [hmax, show (5 : ℕ) = 4 + 1 from rfl, Function.iterate_succ_apply']
    rw [misalignRound_iter p 4 (by rw [hmax]; omega)]
    unfold misalignRound transferLoopRestart
    rw [if_pos ⟨rfl, rfl, rfl⟩,
      if_neg (show ¬((4 : ℕ) + 1 = 1 ∨ 1 < (4 : ℕ) + 1
        ∧ (4 : ℕ) + 1 < DEFAULT_MAX_RETRY_ATTEMPT) from by rw [hmax]; omega)]
  · intro k hk
    rw [misalignRound_iter p k hk]
  · intro ws f t hws hrt
    simp [processRunStep, hrt, hws, hctr]

/-- Witness for `misalignment_restart_protocol`: channels 2, samples 3,
counter row `[0, 9, 7]` (endpoints give 8 ≠ 3), attempt counter at 1. -/
theorem misalignment_restart_protocol_witness :
    ((⟨0, 2, 2, 3, true, false, false⟩ : EngParams).counter = true ∧
      ([(0 : ℤ), 0, 9, 0, 7, 0] : List ℤ).length = 2 * 3 ∧
      counterCheckB [(0 : ℤ), 0, 9, 0, 7, 0] 2 3 = false ∧
      (engInit ⟨0, 2, 2, 3, true, false, false⟩).restart_request = false ∧
      1 + 1 < DEFAULT_MAX_RETRY_ATTEMPT) ∧
    processRun ⟨0, 2, 2, 3, true, false, false⟩ [0, 0, 9, 0, 7, 0]
      = .restartRequest := by
  refine ⟨⟨rfl, by decide, by decide, by decide, by decide⟩, ?_⟩
  exact (misalignment_restart_protocol ⟨0, 2, 2, 3, true, false, false⟩ 1
    [0, 0, 9, 0, 7, 0] (engInit ⟨0, 2, 2, 3, true, false, false⟩) rfl
    (by decide) (by decide) (by decide) (by decide)).1

theorem h5Inv_step (p : H5Params) (h1 : 1 ≤ p.dataset_number) (s : H5State)
    (h : h5Inv p s) : h5Inv p (h5_write_mems p s) := by
  obtain ⟨⟨hg, hd⟩, hidx, hle, hclosed⟩ := h
  unfold h5_write_mems
  split_ifs with hfit hroll
  · exact ⟨⟨hg, hd⟩, hidx, hle, hclosed⟩
  · refine ⟨⟨?_, ?_⟩, ?_, ?_, ?_⟩
    · simp [h5CommitInto, h5_init_file, List.range_succ]
    · simp [h5CommitInto]
    · simp [h5CommitInto]
    · simpa [h5CommitInto] using h1
    · intro f hf
      simp only [List.mem_append, List.mem_singleton] at hf
      rcases hf with hf | rfl
      · exact hclosed f hf
      · exact ⟨hg, hd⟩
  · refine ⟨⟨?_, ?_⟩, ?_, ?_, ?_⟩
    · simp [h5CommitInto, hg, hidx, List.range_succ]
    · simp [h5CommitInto]
    · simp [h5CommitInto]
    · simp only [h5CommitInto]
      omega
    · exact hclosed

/-- Claim C7: For every recorder session with `dataset_number =
⌊file_duration / dataset_duration⌋ ≥ 1`: after any number of writes the
current and all closed files carry dataset groups exactly `0..N-1` with
root attributes `dataset_number = N` and `duration = N ·
dataset_duration`; and a commit opens a fresh file exactly when the dataset
index has reached `⌊file_duration / dataset_duration⌋`. -/
theorem h5_write_mems_attrs (p : H5Params) (fd : ℚ)
    (hN : p.dataset_number = h5DatasetNumber fd p.dataset_duration)
    (h1 : 1 ≤ p.dataset_number) :
    (∀ n, h5Inv p (h5Run p n)) ∧
    (∀ s, h5Inv p s →
      ((h5_write_mems p s).closedFiles ≠ s.closedFiles ↔
        ¬(s.buffer_index + p.buffer_length < p.dataset_length) ∧
          s.dataset_index = h5DatasetNumber fd p.dataset_duration)) := by
  constructor
  · intro n
    induction n with
    | zero =>
      have h0 : h5Run p 0 = h5InitState := rfl
      rw [h0]
      exact ⟨⟨rfl, by simp [h5InitState, h5_init_file]⟩, rfl,
        Nat.zero_le _, by simp [h5InitState]⟩
    | succ k ih =>
      rw [h5Run, Function.iterate_succ_apply']
      exact h5Inv_step p h1 (h5Run p k) ih
  · intro s hs
    obtain ⟨hcur, hidx, hle, hclosed⟩ := hs
    unfold h5_write_mems
    split_ifs with hfit hroll
    · simp only [ne_eq, not_true_eq_false, false_iff, not_and]
      intro hc
      exact absurd hfit hc
    · constructor
      · intro _
        refine ⟨hfit, ?_⟩
        rw [← hN]
        omega
      · intro _
        simp only [ne_eq]
        intro hcontra
        have := congrArg List.length hcontra
        simp at this
    · constructor
      · intro hcontra
        exact absurd rfl hcontra
      · rintro ⟨-, hix⟩
        rw [← hN] at hix
        omega

/-- Witness for `h5_write_mems_attrs`: `buffer_length = 2`,
`dataset_length = 4`, `file_duration = 2 s`, `dataset_duration = 1 s`
(so `dataset_number = 2`), checked after 5 writes. -/
theorem h5_write_mems_attrs_witness :
    ((⟨2, 4, 2, 1⟩ : H5Params).dataset_number = h5DatasetNumber 2 1 ∧
      1 ≤ (⟨2, 4, 2, 1⟩ : H5Params).dataset_number) ∧
    h5Inv ⟨2, 4, 2, 1⟩ (h5Run ⟨2, 4, 2, 1⟩ 5) := by
  have hdn : h5DatasetNumber 2 1 = 2 := by
    rw [h5DatasetNumber, show (2 : ℚ) / 1 = ((2 : ℤ) : ℚ) by norm_num,
      Int.floor_intCast]
    rfl
  refine ⟨⟨by rw [hdn], by decide⟩, ?_⟩
  exact (h5_write_mems_attrs ⟨2, 4, 2, 1⟩ 2 (by rw [hdn]) (by decide)).1 5

theorem natDigits_lt10 (n : ℕ) (h : n < 10) : natDigits n = [48 + n] := by
  simp [natDigits, natDigitsAux, h]

theorem natDigitsAux_succ (fuel n : ℕ) (hf : fuel ≠ 0) :
    natDigitsAux fuel n = if n < 10 then [48 + n]
      else natDigitsAux (fuel - 1) (n / 10) ++ [48 + n % 10] := by
  cases fuel with
  | zero => omega
  | succ f => rfl

theorem natDigits_two (n : ℕ) (h10 : 10 ≤ n) (h : n < 100) :
    natDigits n = [48 + n / 10, 48 + n % 10] := by
  unfold natDigits
  rw [natDigitsAux_succ (n + 1) n (by omega), if_neg (by omega),
    show n + 1 - 1 = n from rfl,
    natDigitsAux_succ n (n / 10) (by omega), if_pos (by omega)]
  rfl

theorem natDigits_year (y : ℕ) (h1 : 1000 ≤ y) (h2 : y < 10000) :
    natDigits y = [48 + y / 10 / 10 / 10, 48 + y / 10 / 10 % 10,
      48 + y / 10 % 10, 48 + y % 10] := by
  unfold natDigits
  rw [natDigitsAux_succ (y + 1) y (by omega), if_neg (by omega),
    show y + 1 - 1 = y from rfl,
    natDigitsAux_succ y (y / 10) (by omega), if_neg (by omega),
    natDigitsAux_succ (y - 1) (y / 10 / 10) (by omega), if_neg (by omega),
    natDigitsAux_succ (y - 1 - 1) (y / 10 / 10 / 10) (by omega),
    if_pos (by omega)]
  rfl

theorem pad2_eq (n : ℕ) (h : n < 100) :
    pad2 n = [48 + n / 10, 48 + n % 10] := by
  by_cases h10 : n < 10
  · rw [pad2, if_pos h10, natDigits_lt10 n h10,
      show n / 10 = 0 by omega, show n % 10 = n by omega]
  · rw [pad2, if_neg h10, natDigits_two n (by omega) h]

theorem lexLtB_cons_iff (a b : ℕ) (as bs : List ℕ) :
    lexLtB (a :: as) (b :: bs) = true
      ↔ a < b ∨ (a = b ∧ lexLtB as bs = true) := by
  simp [lexLtB]

theorem lexLtB_append_same (xs : List ℕ) :
    ∀ u v, lexLtB (xs ++ u) (xs ++ v) = lexLtB u v := by
  induction xs with
  | nil => intro u v; rfl
  | cons a t ih =>
    intro u v
    simp only [List.cons_append]
    simp [lexLtB, ih u v]

theorem lexLtB_append_lt : ∀ (xs ys u v : List ℕ), xs.length = ys.length →
    lexLtB xs ys = true → lexLtB (xs ++ u) (ys ++ v) = true := by
  intro xs
  induction xs with
  | nil =>
    intro ys u v hlen h
    cases ys with
    | nil => simp [lexLtB] at h
    | cons b bs => simp at hlen
  | cons a t ih =>
    intro ys u v hlen h
    cases ys with
    | nil => simp at hlen
    | cons b bs =>
      rw [lexLtB_cons_iff] at h
      simp only [List.cons_append]
      rw [lexLtB_cons_iff]
      rcases h with h | ⟨rfl, h⟩
      · exact Or.inl h
      · exact Or.inr ⟨rfl, ih bs u v (by simpa using hlen) h⟩

theorem lexLeB_of_ltB (a b : List ℕ) (h : lexLtB a b = true) :
    lexLeB a b = true := by
  simp [lexLeB, h]

theorem lexLeB_refl (a : List ℕ) : lexLeB a a = true := by
  simp [lexLeB]

theorem lexLeB_block (P u v r rr : List ℕ) (hlen : u.length = v.length)
    (hlt : lexLtB u v = true) :
    lexLeB (P ++ (u ++ r)) (P ++ (v ++ rr)) = true := by
  apply lexLeB_of_ltB
  rw [lexLtB_append_same]
  exact lexLtB_append_lt u v r rr hlen hlt

theorem lexLtB_pad2 (a b : ℕ) (ha : a < 100) (hb : b < 100) (h : a < b) :
    lexLtB (pad2 a) (pad2 b) = true := by
  rw [pad2_eq a ha, pad2_eq b hb]
  simp only [lexLtB_cons_iff]
  have : ¬(lexLtB [] [] = true) := by simp [lexLtB]
  omega

theorem lexLtB_year (y z : ℕ) (h1 : 1000 ≤ y) (h2 : y < 10000)
    (h1' : 1000 ≤ z) (h2' : z < 10000) (h : y < z) :
    lexLtB (natDigits y) (natDigits z) = true := by
  rw [natDigits_year y h1 h2, natDigits_year z h1' h2']
  simp only [lexLtB_cons_iff]
  have : ¬(lexLtB [] [] = true) := by simp [lexLtB]
  omega

/-- Claim C9 counterexample: The recorder's filename prefix is `mu5h-`, not
the `muh5-` of the claim: at the session date 2022-05-07 22:42:00 the
basename starts with the five characters `m u 5 h -` and is not of the
`muh5-YYYYMMDD-HHMMSS.h5` form. -/
theorem h5_basename_cex :
    (h5_init_file_basename 2022 5 7 22 42 0).take 5
      = [109, 117, 53, 104, 45] ∧
    h5_init_file_basename 2022 5 7 22 42 0
      ≠ [109, 117, 104, 53, 45] ++ natDigits 2022 ++ pad2 5 ++ pad2 7
        ++ [45] ++ pad2 22 ++ pad2 42 ++ pad2 0 ++ [46, 104, 53] := by
  constructor
  · decide
  · decide

set_option maxHeartbeats 1000000 in
/-- Claim C9 amended: Every file created by the recorder has a basename of
the form `mu5h-YYYYMMDD-HHMMSS.h5` (prefix `mu5h-`, not `muh5-`), and for
creation instants in chronological order within a session the basenames are
monotonically non-decreasing in lexicographic order. -/
theorem h5_basename_monotone (y mo d h mi s z mo' d' h' mi' s' : ℕ)
    (hy : 1000 ≤ y) (hy4 : y < 10000) (hz : 1000 ≤ z) (hz4 : z < 10000)
    (hmo : mo < 100) (hmo' : mo' < 100) (hd : d < 100) (hd' : d' < 100)
    (hh : h < 100) (hh' : h' < 100) (hmi : mi < 100) (hmi' : mi' < 100)
    (hs : s < 100) (hs' : s' < 100)
    (hchron : chronLe y mo d h mi s z mo' d' h' mi' s') :
    (h5_init_file_basename y mo d h mi s).take 5
      = [109, 117, 53, 104, 45] ∧
    lexLeB (h5_init_file_basename y mo d h mi s)
      (h5_init_file_basename z mo' d' h' mi' s') = true := by
  refine ⟨rfl, ?_⟩
  have hplen : ∀ a b : ℕ, a < 100 → b < 100 →
      (pad2 a).length = (pad2 b).length := by
    intro a b ha hb
    rw [pad2_eq a ha, pad2_eq b hb]
    rfl
  have hDlen2 : ∀ a b : ℕ, 1000 ≤ a → a < 10000 → 1000 ≤ b → b < 10000 →
      (natDigits a).length = (natDigits b).length := by
    intro a b h1 h2 h3 h4
    rw [natDigits_year a h1 h2, natDigits_year b h3 h4]
    rfl
  unfold h5_init_file_basename
  simp only [List.append_assoc]
  rcases hchron with hlt | ⟨rfl, hchron⟩
  · exact lexLeB_block [109, 117, 53, 104, 45] (natDigits y) (natDigits z)
      _ _ (hDlen2 y z hy hy4 hz hz4) (lexLtB_year y z hy hy4 hz hz4 hlt)
  rcases hchron with hlt | ⟨rfl, hchron⟩
  · have := lexLeB_block ([109, 117, 53, 104, 45] ++ natDigits y)
      (pad2 mo) (pad2 mo')
      (pad2 d ++ [45] ++ pad2 h ++ pad2 mi ++ pad2 s ++ [46, 104, 53])
      (pad2 d' ++ [45] ++ pad2 h' ++ pad2 mi' ++ pad2 s' ++ [46, 104, 53])
      (hplen mo mo' hmo hmo') (lexLtB_pad2 mo mo' hmo hmo' hlt)
    simpa [List.append_assoc] using this
  rcases hchron with hlt | ⟨rfl, hchron⟩
  · have := lexLeB_block
      ([109, 117, 53, 104, 45] ++ natDigits y ++ pad2 mo)
      (pad2 d) (pad2 d')
      ([45] ++ pad2 h ++ pad2 mi ++ pad2 s ++ [46, 104, 53])
      ([45] ++ pad2 h' ++ pad2 mi' ++ pad2 s' ++ [46, 104, 53])
      (hplen d d' hd hd') (lexLtB_pad2 d d' hd hd' hlt)
    simpa [List.append_assoc] using this
  rcases hchron with hlt | ⟨rfl, hchron⟩
  · have := lexLeB_block
      ([109, 117, 53, 104, 45] ++ natDigits y ++ pad2 mo ++ pad2 d ++ [45])
      (pad2 h) (pad2 h')
      (pad2 mi ++ pad2 s ++ [46, 104, 53])
      (pad2 mi' ++ pad2 s' ++ [46, 104, 53])
      (hplen h h' hh hh') (lexLtB_pad2 h h' hh hh' hlt)
    simpa [List.append_assoc] using this
  rcases hchron with hlt | ⟨rfl, hse⟩
  · have := lexLeB_block
      ([109, 117, 53, 104, 45] ++ natDigits y ++ pad2 mo ++ pad2 d ++ [45]
        ++ pad2 h)
      (pad2 mi) (pad2 mi')
      (pad2 s ++ [46, 104, 53]) (pad2 s' ++ [46, 104, 53])
      (hplen mi mi' hmi hmi') (lexLtB_pad2 mi mi' hmi hmi' hlt)
    simpa [List.append_assoc] using this
  rcases Nat.lt_or_ge s s' with hlt | hge
  · have := lexLeB_block
      ([109, 117, 53, 104, 45] ++ natDigits y ++ pad2 mo ++ pad2 d ++ [45]
        ++ pad2 h ++ pad2 mi)
      (pad2 s) (pad2 s') [46, 104, 53] [46, 104, 53]
      (hplen s s' hs hs') (lexLtB_pad2 s s' hs hs' hlt)
    simpa [List.append_assoc] using this
  · have hseq : s = s' := by omega
    subst hseq
    exact lexLeB_refl _

/-- Witness for `h5_basename_monotone`: 2022-05-07 22:42:00 against
2023-01-01 00:00:00. -/
theorem h5_basename_monotone_witness :
    (1000 ≤ 2022 ∧ (2022 : ℕ) < 10000 ∧
      chronLe 2022 5 7 22 42 0 2023 1 1 0 0 0) ∧
    lexLeB (h5_init_file_basename 2022 5 7 22 42 0)
      (h5_init_file_basename 2023 1 1 0 0 0) = true := by
  refine ⟨⟨by decide, by decide, by decide⟩, ?_⟩
  exact (h5_basename_monotone 2022 5 7 22 42 0 2023 1 1 0 0 0
    (by decide) (by decide) (by decide) (by decide) (by decide) (by decide)
    (by decide) (by decide) (by decide) (by decide) (by decide) (by decide)
    (by decide) (by decide) (by decide)).2

end Mu32
